import Mathlib

/-!
Shallow embedding of the mini-api-gateway request pipeline (src/server.js)
and proofs about its rate limiter, response cache, authentication guard,
route resolution and path rewriting.

Timestamps are in milliseconds (`Nat`), mirroring JavaScript `Date.now()`.
JavaScript `Map` objects are modelled as insertion-ordered association
lists with string keys, which matches `Map` iteration order, `Map.set`
(update in place for an existing key, append for a fresh one),
`Map.delete` and `Map.size` for maps whose keys are distinct.
-/

namespace MiniGateway

/-- `m.get(k)` on a JavaScript `Map`: the value at the first entry whose key is `k`. -/
def mapGet {α : Type} : List (String × α) → String → Option α
  | [], _ => none
  | e :: t, k => if e.1 = k then some e.2 else mapGet t k

/-- `m.has(k)` on a JavaScript `Map`. -/
def containsKey {α : Type} : List (String × α) → String → Bool
  | [], _ => false
  | e :: t, k => if e.1 = k then true else containsKey t k

/-- `m.set(k, v)` on a JavaScript `Map`: overwrite in place if `k` is present,
append a fresh entry at the end otherwise. -/
def mapSet {α : Type} : List (String × α) → String → α → List (String × α)
  | [], k, v => [(k, v)]
  | e :: t, k, v => if e.1 = k then (k, v) :: t else e :: mapSet t k v

/-- `m.delete(k)` on a JavaScript `Map` (removes every entry with key `k`;
identical to `Map.delete` on maps with distinct keys). -/
def mapDelete {α : Type} : List (String × α) → String → List (String × α)
  | [], _ => []
  | e :: t, k => if e.1 = k then mapDelete t k else e :: mapDelete t k

/-- Keys of the map, in insertion order. -/
def mapKeys {α : Type} (m : List (String × α)) : List String := m.map (·.1)

/-! ## Rate limiter (src/server.js, `rateLimiter`, lines 52-88) -/

/-- `windowMs = 60 * 1000` (one-minute window). -/
def windowMs : Nat := 60000

/-- `maxRequests = 10`. -/
def maxRequests : Nat := 10

/-- The per-client record `{ count, windowStart }` held in `rateLimitStore`. -/
structure IpData where
  count : Nat
  windowStart : Nat
deriving DecidableEq

abbrev RateStore := List (String × IpData)

/-- Outcome of the `rateLimiter` middleware on one request: either the 429
rejection carrying the body's `retryAfter` value, or passage to the next
middleware carrying the three `X-RateLimit-*` header values
(limit, remaining, and the reset time `windowStart + windowMs`). -/
inductive RateResult where
  | deny (retryAfter : Nat)
  | allow (limit remaining : Nat) (resetAt : Nat)
deriving DecidableEq

/-- The cleanup loop at the top of `rateLimiter`: delete every entry with
`now - data.windowStart > windowMs`.  JavaScript computes a signed
difference; for `windowStart > now` it is negative, hence not `> windowMs`,
which agrees with truncated `Nat` subtraction giving `0`. -/
def sweepStore (st : RateStore) (now : Nat) : RateStore :=
  st.filter (fun e => now - e.2.windowStart ≤ windowMs)

/-- `rateLimiter` (src/server.js lines 52-88).  `Math.max(0, maxRequests - count)`
on integers with `count ≥ 0` equals truncated `Nat` subtraction, and in the
deny branch `now - windowStart ≤ windowMs` always holds (a fresh or reset
window has `windowStart = now`), so `Math.ceil((windowMs - (now - windowStart)) / 1000)`
is the `Nat` ceiling division `(windowMs - (now - windowStart) + 999) / 1000`. -/
def rateLimiter (st : RateStore) (clientIp : String) (now : Nat) :
    RateResult × RateStore :=
  let swept := sweepStore st now
  let ipData : IpData :=
    match mapGet swept clientIp with
    | some d => if now - d.windowStart > windowMs then ⟨0, now⟩ else d
    | none => ⟨0, now⟩
  let ipData : IpData := ⟨ipData.count + 1, ipData.windowStart⟩
  let st2 := mapSet swept clientIp ipData
  if ipData.count > maxRequests then
    (.deny ((windowMs - (now - ipData.windowStart) + 999) / 1000), st2)
  else
    (.allow maxRequests (maxRequests - ipData.count) (ipData.windowStart + windowMs), st2)

/-- A sequence of requests from one client, returning every per-request
outcome and the final store (used to state the quota-consumption claims). -/
def runSeq (st : RateStore) (ip : String) : List Nat → List RateResult × RateStore
  | [] => ([], st)
  | t :: ts =>
    let p := rateLimiter st ip t
    let q := runSeq p.2 ip ts
    (p.1 :: q.1, q.2)

/-! ## Response cache (src/server.js, `cacheMiddleware`, lines 91-125) -/

/-- The cache TTL: `30000` ms in `(Date.now() - cached.timestamp) < 30000`. -/
def cacheTTLms : Nat := 30000

/-- `cacheStore.size > 100` triggers cleanup. -/
def maxCacheSize : Nat := 100

/-- `slice(0, 10)`: the eviction batch size. -/
def evictBatch : Nat := 10

/-- Response bodies that reach `res.json` in the gateway, made explicit per
producing handler.  `upstream` carries a backend body relayed by the proxy;
`health` carries the handler's timestamp and the configured route prefixes
(its ambient `uptime` field is not modelled); `stats` carries
`rateLimitStore.size` and `cacheStore.size` (its ambient `memory` field is
not modelled). -/
inductive Payload where
  | upstream (body : String)
  | health (timestamp : Nat) (routes : List String)
  | stats (activeConnections cacheSize : Nat)
  | errMissingKey
  | errInvalidKey
  | rateLimited (retryAfter : Nat)
  | notFound (availableRoutes : List String)
deriving DecidableEq

/-- A `cacheStore` entry `{ data, timestamp }`. -/
structure CacheEntry where
  data : Payload
  timestamp : Nat
deriving DecidableEq

abbrev CacheStore := List (String × CacheEntry)

/-- The cache key `` `${req.method}:${req.originalUrl}:${req.headers['x-api-key']}` ``. -/
def cacheKey (method originalUrl apiKey : String) : String :=
  method ++ ":" ++ originalUrl ++ ":" ++ apiKey

/-- The hit test of `cacheMiddleware`: an entry exists and
`Date.now() - cached.timestamp < 30000` (again, a negative JavaScript
difference and truncated `Nat` subtraction agree: both yield a hit). -/
def cacheLookup (cs : CacheStore) (key : String) (now : Nat) : Option CacheEntry :=
  match mapGet cs key with
  | some e => if now - e.timestamp < cacheTTLms then some e else none
  | none => none

/-- The patched `res.json` of `cacheMiddleware` (lines 107-122): store the
body only when `res.statusCode === 200`; after the store, if
`cacheStore.size > 100`, delete the first ten keys in insertion order. -/
def cacheStoreStep (cs : CacheStore) (key : String) (data : Payload)
    (now : Nat) (status : Nat) : CacheStore :=
  if status = 200 then
    let cs1 := mapSet cs key ⟨data, now⟩
    if cs1.length > maxCacheSize then
      ((mapKeys cs1).take evictBatch).foldl mapDelete cs1
    else cs1
  else cs

/-! ## Route resolution and path rewriting
(src/server.js, `proxyOptions.router` lines 160-167 and
`proxyOptions.onProxyReq` lines 188-198) -/

/-- The configured route table: `config.json` as an ordered list of
`(prefix, target)` pairs (`Object.entries(config)` preserves declaration
order for such string keys). -/
abbrev Config := List (String × String)

/-- JavaScript `path.startsWith(route)`: a code-unit prefix test, modelled
as a character-list prefix test. -/
def jsStartsWith (s p : String) : Bool := p.data.isPrefixOf s.data

/-- Removal of the first occurrence of `pat` from a character list, the
effect of JavaScript `s.replace(pat, '')` for a string pattern. -/
def removeFirstOcc (pat : List Char) : List Char → List Char
  | [] => []
  | c :: t => if pat.isPrefixOf (c :: t) then (c :: t).drop pat.length
              else c :: removeFirstOcc pat t

/-- JavaScript `s.replace(pat, '')` (string pattern: only the first
occurrence is replaced). -/
def jsReplaceFirstEmpty (s pat : String) : String :=
  String.mk (removeFirstOcc pat.data s.data)

/-- The part of the URL between its first and second `'?'`, the value of
JavaScript `url.split('?')[1]` when the URL contains a `'?'`. -/
def jsSecondField (l : List Char) : List Char :=
  ((l.dropWhile (fun c => c ≠ '?')).drop 1).takeWhile (fun c => c ≠ '?')

/-- The query suffix re-appended by `onProxyReq`:
`req.url.includes('?') ? '?' + req.url.split('?')[1] : ''`. -/
def querySuffix (url : String) : String :=
  if url.data.contains '?' then "?" ++ String.mk (jsSecondField url.data) else ""

/-- `proxyOptions.router` (lines 160-167): the target of the first
configured route whose prefix the request path starts with. -/
def routerTarget (cfg : Config) (path : String) : Option String :=
  (cfg.find? (fun rt => jsStartsWith path rt.1)).map (·.2)

/-- The path rewrite of `proxyOptions.onProxyReq` (lines 188-198): strip
the first matching route prefix (`req.path.replace(route, '') || '/'`,
falling back to `'/'` when the remainder is empty), then re-append the
query suffix of `req.url`. -/
def rewrittenPath (cfg : Config) (path url : String) : String :=
  let newPath :=
    match cfg.find? (fun rt => jsStartsWith path rt.1) with
    | some rt =>
      let s := jsReplaceFirstEmpty path rt.1
      if s = "" then "/" else s
    | none => path
  newPath ++ querySuffix url

/-! ## The request pipeline (src/server.js, middleware stack lines 126-252) -/

/-- The parts of an Express request the pipeline reads: `req.method`,
`req.path` (path component), `req.originalUrl` (path plus query string),
the `x-api-key` header, and `req.ip`. -/
structure Request where
  method : String
  path : String
  originalUrl : String
  apiKey : Option String
  ip : String

/-- The two JavaScript `Map`s holding all mutable gateway state. -/
structure GatewayState where
  rateStore : RateStore
  cacheStore : CacheStore
deriving DecidableEq

/-- The client-visible outcome of one request: status code, body,
the `_cachedAt` annotation when the body was served from the cache
(`_cached: true` holds exactly when `cachedAt` is `some`), the
`X-RateLimit-*` headers when set, and whether the Forwarder issued an
upstream call. -/
structure GwResponse where
  status : Nat
  payload : Payload
  cachedAt : Option Nat
  rlHeaders : Option (Nat × Nat × Nat)
  forwarded : Bool
deriving DecidableEq

/-- Modelled from the spec: the Forwarder (the `http-proxy-middleware`
proxy created at src/server.js line 217, whose implementation is not part
of this repository) performs exactly one upstream call per forwarded
request and relays the upstream status code and body through the
gateway's response writer, which `cacheMiddleware` has patched (spec
sections 4.5 and 4.3).  It is modelled as a pure oracle from the request
to the upstream status and body. -/
abbrev Upstream := Request → Nat × String

/-- Express mount matching for `app.use(route, proxy)`: the mount path
matches the request path exactly or as a path-segment prefix. -/
def mountMatches (route path : String) : Bool :=
  if path = route then true else jsStartsWith path (route ++ "/")

/-- Route dispatch after the middleware stack (lines 138-252): the
`/health` and `/gateway/stats` GET handlers, then the proxy mounts in
configuration order, then the 404 handler.  Returns status, body and
whether the Forwarder was invoked.  `stats` reads the current
`rateLimitStore.size` and `cacheStore.size`. -/
def dispatch (cfg : Config) (upstream : Upstream) (st : GatewayState)
    (req : Request) (now : Nat) : Nat × Payload × Bool :=
  if req.method = "GET" ∧ req.path = "/health" then
    (200, .health now (cfg.map (·.1)), false)
  else if req.method = "GET" ∧ req.path = "/gateway/stats" then
    (200, .stats st.rateStore.length st.cacheStore.length, false)
  else
    match cfg.find? (fun rt => mountMatches rt.1 req.path) with
    | some _ =>
      let r := upstream req
      (r.1, .upstream r.2, true)
    | none => (404, .notFound (cfg.map (·.1)), false)

/-- One request through the full middleware stack (lines 134-136 fix the
order: `authenticateApiKey`, then `rateLimiter`, then `cacheMiddleware`,
then the routes): authentication (lines 32-49), rate limiting, the GET
cache with its patched `res.json`, and dispatch. -/
def handle (cfg : Config) (validKey : String) (upstream : Upstream)
    (st : GatewayState) (req : Request) (now : Nat) :
    GwResponse × GatewayState :=
  match req.apiKey with
  | none => (⟨401, .errMissingKey, none, none, false⟩, st)
  | some key =>
    if key ≠ validKey then
      (⟨401, .errInvalidKey, none, none, false⟩, st)
    else
      match rateLimiter st.rateStore req.ip now with
      | (.deny retryAfter, rs) =>
        (⟨429, .rateLimited retryAfter, none, none, false⟩, ⟨rs, st.cacheStore⟩)
      | (.allow lim rem reset, rs) =>
        let st1 : GatewayState := ⟨rs, st.cacheStore⟩
        let hdrs : Option (Nat × Nat × Nat) := some (lim, rem, reset)
        if req.method = "GET" then
          let ckey := cacheKey req.method req.originalUrl key
          match cacheLookup st1.cacheStore ckey now with
          | some e => (⟨200, e.data, some e.timestamp, hdrs, false⟩, st1)
          | none =>
            let d := dispatch cfg upstream st1 req now
            (⟨d.1, d.2.1, none, hdrs, d.2.2⟩,
             ⟨rs, cacheStoreStep st1.cacheStore ckey d.2.1 now d.1⟩)
        else
          let d := dispatch cfg upstream st1 req now
          (⟨d.1, d.2.1, none, hdrs, d.2.2⟩, st1)

/-! ## Lemmas about the `Map` model -/

theorem mapGet_filter {α : Type} (p : String × α → Bool) :
    ∀ (l : List (String × α)) (k : String) (v : α),
      mapGet l k = some v → p (k, v) = true → mapGet (l.filter p) k = some v := by
  intro l
  induction l with
  | nil => intro k v h; simp [mapGet] at h
  | cons e t ih =>
    obtain ⟨a, b⟩ := e
    intro k v h hp
    by_cases hk : a = k
    · subst hk
      have hv : b = v := by simpa [mapGet] using h
      subst hv
      rw [List.filter_cons, if_pos hp]
      simp [mapGet]
    · have h' : mapGet t k = some v := by simpa [mapGet, hk] using h
      rw [List.filter_cons]
      by_cases hpe : p (a, b) = true
      · simp only [if_pos hpe]
        simpa [mapGet, hk] using ih k v h' hp
      · simp only [if_neg hpe]
        exact ih k v h' hp

theorem mapGet_mapSet_self {α : Type} :
    ∀ (l : List (String × α)) (k : String) (v : α), mapGet (mapSet l k v) k = some v := by
  intro l
  induction l with
  | nil => intro k v; simp [mapGet, mapSet]
  | cons e t ih =>
    intro k v
    by_cases hk : e.1 = k
    · simp [mapSet, hk, mapGet]
    · simp [mapSet, hk, mapGet, ih]

theorem mapGet_mapSet_ne {α : Type} :
    ∀ (l : List (String × α)) (k k' : String) (v : α),
      k' ≠ k → mapGet (mapSet l k v) k' = mapGet l k' := by
  intro l
  induction l with
  | nil => intro k k' v hne; simp [mapGet, mapSet, hne.symm]
  | cons e t ih =>
    obtain ⟨a, b⟩ := e
    intro k k' v hne
    by_cases hk : a = k
    · subst hk
      simp [mapSet, mapGet, hne.symm]
    · by_cases hk' : a = k'
      · subst hk'
        simp [mapSet, hne, mapGet]
      · simp [mapSet, hk, mapGet, hk', ih k k' v hne]

theorem mapSet_of_not_contains {α : Type} :
    ∀ (l : List (String × α)) (k : String) (v : α),
      containsKey l k = false → mapSet l k v = l ++ [(k, v)] := by
  intro l
  induction l with
  | nil => intro k v _; simp [mapSet]
  | cons e t ih =>
    intro k v h
    by_cases hk : e.1 = k
    · simp [containsKey, hk] at h
    · simp [containsKey, hk] at h
      simp [mapSet, hk, ih k v h]

theorem not_mem_mapKeys_of_not_contains {α : Type} :
    ∀ (l : List (String × α)) (k : String),
      containsKey l k = false → k ∉ mapKeys l := by
  intro l
  induction l with
  | nil => intro k _; simp [mapKeys]
  | cons e t ih =>
    obtain ⟨a, b⟩ := e
    intro k h
    by_cases hk : a = k
    · simp [containsKey, hk] at h
    · simp [containsKey, hk] at h
      have hne : k ≠ a := fun hh => hk hh.symm
      simp only [mapKeys, List.map_cons, List.mem_cons]
      rintro (hh | hm)
      · exact hne hh
      · exact ih k h (by simpa [mapKeys] using hm)

theorem mapDelete_of_not_mem {α : Type} :
    ∀ (l : List (String × α)) (k : String), k ∉ mapKeys l → mapDelete l k = l := by
  intro l
  induction l with
  | nil => intro k _; simp [mapDelete]
  | cons e t ih =>
    intro k h
    simp [mapKeys] at h
    have hk : e.1 ≠ k := fun hh => h.1 hh.symm
    have ht : k ∉ mapKeys t := by simpa [mapKeys] using h.2
    simp [mapDelete, hk, ih k ht]

theorem foldl_mapDelete_take {α : Type} :
    ∀ (l : List (String × α)) (n : Nat), (mapKeys l).Nodup →
      ((mapKeys l).take n).foldl mapDelete l = l.drop n := by
  intro l
  induction l with
  | nil => intro n _; simp [mapKeys]
  | cons e t ih =>
    intro n hnd
    match n with
    | 0 => simp
    | m + 1 =>
      simp only [mapKeys, List.map_cons] at hnd ⊢
      have hmem : e.1 ∉ mapKeys t := by
        simpa [mapKeys] using (List.nodup_cons.mp hnd).1
      have hnd' : (mapKeys t).Nodup := by
        simpa [mapKeys] using (List.nodup_cons.mp hnd).2
      rw [List.take_succ_cons, List.foldl_cons]
      have hdel : mapDelete (e :: t) e.1 = t := by
        simp [mapDelete, mapDelete_of_not_mem t e.1 hmem]
      rw [hdel]
      simpa [mapKeys] using ih m hnd'

theorem mapGet_eq_none_of_not_contains {α : Type} :
    ∀ (l : List (String × α)) (k : String),
      containsKey l k = false → mapGet l k = none := by
  intro l
  induction l with
  | nil => intro k _; rfl
  | cons e t ih =>
    intro k h
    by_cases hk : e.1 = k
    · simp [containsKey, hk] at h
    · simp [containsKey, hk] at h
      simp [mapGet, hk, ih k h]

theorem containsKey_mapSet_self {α : Type} :
    ∀ (l : List (String × α)) (k : String) (v : α),
      containsKey (mapSet l k v) k = true := by
  intro l
  induction l with
  | nil => intro k v; simp [mapSet, containsKey]
  | cons e t ih =>
    intro k v
    by_cases hk : e.1 = k
    · simp [mapSet, hk, containsKey]
    · simp [mapSet, hk, containsKey, ih]

theorem length_mapSet_le {α : Type} :
    ∀ (l : List (String × α)) (k : String) (v : α),
      (mapSet l k v).length ≤ l.length + 1 := by
  intro l
  induction l with
  | nil => intro k v; simp [mapSet]
  | cons e t ih =>
    intro k v
    by_cases hk : e.1 = k
    · simp [mapSet, hk]
    · simp only [mapSet, hk, if_neg hk, List.length_cons]
      exact Nat.succ_le_succ (ih k v)

/-! ## Lemmas about the rate limiter -/

theorem sweepStore_get (st : RateStore) (ip : String) (now ws : Nat) (c : Nat)
    (hget : mapGet st ip = some ⟨c, ws⟩) (hwin : now - ws ≤ windowMs) :
    mapGet (sweepStore st now) ip = some ⟨c, ws⟩ := by
  exact mapGet_filter _ st ip ⟨c, ws⟩ hget (by simpa [sweepStore] using hwin)

theorem rateLimiter_allow_step (st : RateStore) (ip : String) (now ws : Nat) (c : Nat)
    (hget : mapGet st ip = some ⟨c, ws⟩) (hwin : now - ws ≤ windowMs)
    (hc : c + 1 ≤ maxRequests) :
    rateLimiter st ip now =
      (.allow maxRequests (maxRequests - (c + 1)) (ws + windowMs),
       mapSet (sweepStore st now) ip ⟨c + 1, ws⟩) := by
  have hs := sweepStore_get st ip now ws c hget hwin
  simp only [rateLimiter, hs, Nat.not_lt.mpr hwin, if_false, if_neg (Nat.not_lt.mpr hc)]

theorem rateLimiter_deny_step (st : RateStore) (ip : String) (now ws : Nat) (c : Nat)
    (hget : mapGet st ip = some ⟨c, ws⟩) (hwin : now - ws ≤ windowMs)
    (hc : maxRequests < c + 1) :
    rateLimiter st ip now =
      (.deny ((windowMs - (now - ws) + 999) / 1000),
       mapSet (sweepStore st now) ip ⟨c + 1, ws⟩) := by
  have hs := sweepStore_get st ip now ws c hget hwin
  simp only [rateLimiter, hs, Nat.not_lt.mpr hwin, if_false, if_pos hc]

theorem rateLimiter_fresh (st : RateStore) (ip : String) (now : Nat)
    (hget : mapGet (sweepStore st now) ip = none) :
    rateLimiter st ip now =
      (.allow maxRequests (maxRequests - 1) (now + windowMs),
       mapSet (sweepStore st now) ip ⟨1, now⟩) := by
  simp only [rateLimiter, hget]
  norm_num [maxRequests]

theorem runSeq_same_window (ip : String) (ws : Nat) :
    ∀ (ts : List Nat) (k : Nat), k + ts.length ≤ maxRequests →
      (∀ t ∈ ts, t - ws ≤ windowMs) →
      runSeq [(ip, ⟨k, ws⟩)] ip ts =
        ((List.range ts.length).map
          (fun i => .allow maxRequests (maxRequests - (k + i + 1)) (ws + windowMs)),
         [(ip, ⟨k + ts.length, ws⟩)]) := by
  intro ts
  induction ts with
  | nil => intro k _ _; simp [runSeq]
  | cons t rest ih =>
    intro k hk hwin
    have hk' : k + (rest.length + 1) ≤ maxRequests := by simpa using hk
    have h1 : t - ws ≤ windowMs := hwin t (by simp)
    have hstep := rateLimiter_allow_step [(ip, ⟨k, ws⟩)] ip t ws k
      (by simp [mapGet]) h1 (by omega)
    have hset : mapSet (sweepStore [(ip, ⟨k, ws⟩)] t) ip ⟨k + 1, ws⟩ =
        [(ip, ⟨k + 1, ws⟩)] := by
      simp only [sweepStore, List.filter_cons, List.filter_nil]
      rw [if_pos (by simpa using h1)]
      simp [mapSet]
    rw [hset] at hstep
    have hrest := ih (k + 1) (by omega) (fun u hu => hwin u (by simp [hu]))
    simp only [runSeq, hstep, hrest, List.length_cons, List.range_succ_eq_map,
      List.map_cons, List.map_map, Prod.mk.injEq, List.cons.injEq]
    refine ⟨⟨?_, ?_⟩, ?_⟩
    · simp
    · apply List.map_congr_left
      intro i _
      simp only [Function.comp_apply, RateResult.allow.injEq, true_and, and_true]
      omega
    · simp only [List.cons.injEq, Prod.mk.injEq, IpData.mk.injEq, true_and, and_true]
      omega

/-! ## Lemmas about route resolution and path rewriting -/

theorem find?_first {α : Type} (p : α → Bool) :
    ∀ (pre : List α) (x : α) (post : List α),
      (∀ r ∈ pre, p r = false) → p x = true →
      (pre ++ x :: post).find? p = some x := by
  intro pre
  induction pre with
  | nil =>
    intro x post _ hx
    simpa using List.find?_cons_of_pos _ hx
  | cons a t ih =>
    intro x post hpre hx
    have ha : ¬ p a = true := by simp [hpre a (by simp)]
    simp only [List.cons_append, List.find?_cons_of_neg _ ha]
    exact ih x post (fun r hr => hpre r (by simp [hr])) hx

theorem jsStartsWith_append (p rest : String) : jsStartsWith (p ++ rest) p = true := by
  simp [jsStartsWith, String.data_append]

theorem removeFirstOcc_append (l r : List Char) : removeFirstOcc l (l ++ r) = r := by
  cases l with
  | nil =>
    cases r with
    | nil => rfl
    | cons c t => simp [removeFirstOcc, List.isPrefixOf]
  | cons c t =>
    have hpre : (c :: t).isPrefixOf (c :: (t ++ r)) = true := by
      simp only [← List.cons_append]
      simp
    show removeFirstOcc (c :: t) (c :: (t ++ r)) = r
    simp only [removeFirstOcc, hpre, if_true]
    simp only [← List.cons_append]
    exact List.drop_left (c :: t) r

theorem takeWhileNeq_eq_self (a : Char) (l : List Char) (h : a ∉ l) :
    l.takeWhile (fun c => c ≠ a) = l := by
  rw [List.takeWhile_eq_self_iff]
  intro x hx
  simp only [ne_eq, decide_not, Bool.not_eq_true', decide_eq_false_iff_not]
  exact fun hxa => h (hxa ▸ hx)

theorem takeWhileNeq_append (a : Char) (l r : List Char) (h : a ∉ l) :
    (l ++ a :: r).takeWhile (fun c => c ≠ a) = l := by
  induction l with
  | nil => simp [List.takeWhile_cons]
  | cons c t ih =>
    simp only [List.mem_cons, not_or] at h
    have hca : c ≠ a := fun hh => h.1 hh.symm
    have hpc : decide (c ≠ a) = true := by simpa using hca
    rw [List.cons_append, List.takeWhile_cons, if_pos hpc]
    exact congrArg (c :: ·) (ih h.2)

theorem dropWhileNeq_append (a : Char) (l r : List Char) (h : a ∉ l) :
    (l ++ a :: r).dropWhile (fun c => c ≠ a) = a :: r := by
  induction l with
  | nil => simp [List.dropWhile_cons]
  | cons c t ih =>
    simp only [List.mem_cons, not_or] at h
    have hca : c ≠ a := fun hh => h.1 hh.symm
    have hpc : decide (c ≠ a) = true := by simpa using hca
    rw [List.cons_append, List.dropWhile_cons, if_pos hpc]
    exact ih h.2

theorem jsSecondField_append (p q : List Char) (hp : '?' ∉ p) :
    jsSecondField (p ++ '?' :: q) = q.takeWhile (fun c => c ≠ '?') := by
  simp only [jsSecondField, dropWhileNeq_append '?' p q hp, List.drop_succ_cons,
    List.drop_zero]

theorem querySuffix_of_no_qmark (p : String) (h : '?' ∉ p.data) : querySuffix p = "" := by
  simp [querySuffix, h]

theorem querySuffix_one_qmark (p q : String) (hp : '?' ∉ p.data) (hq : '?' ∉ q.data) :
    querySuffix (p ++ "?" ++ q) = "?" ++ q := by
  have hdata : (p ++ "?" ++ q).data = p.data ++ '?' :: q.data := by
    simp [String.data_append]
  have hmem : ((p ++ "?" ++ q).data.contains '?') = true := by
    rw [hdata]; simp
  rw [querySuffix, if_pos hmem, hdata, jsSecondField_append p.data q.data hp,
    takeWhileNeq_eq_self '?' q.data hq]

theorem querySuffix_two_qmark (p q1 q2 : String) (hp : '?' ∉ p.data)
    (hq1 : '?' ∉ q1.data) :
    querySuffix (p ++ "?" ++ q1 ++ "?" ++ q2) = "?" ++ q1 := by
  have hdata : (p ++ "?" ++ q1 ++ "?" ++ q2).data =
      p.data ++ '?' :: (q1.data ++ '?' :: q2.data) := by
    simp [String.data_append]
  have hmem : ((p ++ "?" ++ q1 ++ "?" ++ q2).data.contains '?') = true := by
    rw [hdata]; simp
  rw [querySuffix, if_pos hmem, hdata, jsSecondField_append p.data _ hp,
    takeWhileNeq_append '?' q1.data q2.data hq1]

/-! ## Claim theorems -/

/-- C3 counterexample: a client whose window holds `count = 10` and whose
eleventh request arrives exactly `windowMs` after the window start (so the
window is not yet expired, since the reset test is strict) is denied with
`retryAfter = ceil((60000 - 60000) / 1000) = 0`, refuting the claim that
`retryAfterSeconds` is strictly greater than `0`. -/
theorem deny_at_window_boundary_retry_after_zero :
    (rateLimiter [("client", ⟨10, 0⟩)] "client" 60000).1 = .deny 0 ∧ ¬ (0 : Nat) > 0 := by
  constructor <;> decide

/-- C3 (amended): the `(max+1)`-th request in a still-open window is denied
with status 429 and
`retryAfterSeconds = ceil((windowDuration - (now - windowStart)) / 1000)`,
which is at most the window duration (60) and strictly positive whenever
`now - windowStart < windowDuration`; at the exact boundary
`now - windowStart = windowDuration` it is `0`. -/
theorem deny_retry_after_formula (st : RateStore) (ip : String) (ws now : Nat)
    (hget : mapGet st ip = some ⟨maxRequests, ws⟩) (hwin : now - ws ≤ windowMs) :
    (rateLimiter st ip now).1 = .deny ((windowMs - (now - ws) + 999) / 1000) ∧
    (windowMs - (now - ws) + 999) / 1000 ≤ 60 ∧
    (now - ws < windowMs → 0 < (windowMs - (now - ws) + 999) / 1000) := by
  have h := rateLimiter_deny_step st ip now ws maxRequests hget hwin
    (Nat.lt_succ_self maxRequests)
  refine ⟨by rw [h], ?_, ?_⟩
  · calc (windowMs - (now - ws) + 999) / 1000
        ≤ 60999 / 1000 := by
          apply Nat.div_le_div_right
          have := Nat.sub_le windowMs (now - ws)
          simp only [windowMs] at this ⊢
          omega
      _ = 60 := by norm_num
  · intro hlt
    have hpos : 1000 ≤ windowMs - (now - ws) + 999 := by
      simp only [windowMs] at hlt ⊢
      omega
    exact Nat.div_pos hpos (by norm_num)

/-- C3 witness. -/
theorem deny_retry_after_formula_witness :
    (rateLimiter [("client", ⟨10, 0⟩)] "client" 30000).1 =
      .deny ((windowMs - (30000 - 0) + 999) / 1000) ∧
    (windowMs - (30000 - 0) + 999) / 1000 ≤ 60 ∧
    (30000 - 0 < windowMs → 0 < (windowMs - (30000 - 0) + 999) / 1000) :=
  deny_retry_after_formula [("client", ⟨10, 0⟩)] "client" 0 30000 (by decide) (by decide)

/-- C4 counterexample: a request that passes authentication but is denied by
the rate limiter receives status 429 with none of the `X-RateLimit-*`
headers, because the deny branch returns before `res.set` is reached;
this refutes the claim that the headers are carried on 429 responses. -/
theorem denied_response_lacks_ratelimit_headers :
    ((handle [("/api/users", "http://x")] "secret" (fun _ => (200, "ok"))
        ⟨[("1.2.3.4", ⟨10, 0⟩)], []⟩
        ⟨"GET", "/api/users/1", "/api/users/1", some "secret", "1.2.3.4"⟩ 1000).1.status
      = 429) ∧
    ((handle [("/api/users", "http://x")] "secret" (fun _ => (200, "ok"))
        ⟨[("1.2.3.4", ⟨10, 0⟩)], []⟩
        ⟨"GET", "/api/users/1", "/api/users/1", some "secret", "1.2.3.4"⟩ 1000).1.rlHeaders
      = none) := by
  constructor <;> decide

/-- C4 (amended): for every request that passes authentication, if the rate
limiter allows it the response carries the three `X-RateLimit-*` header
values computed by the limiter, and if the limiter denies it the response
is the 429 rejection with `retryAfter` in the body and no `X-RateLimit-*`
headers. -/
theorem ratelimit_headers_on_allowed (cfg : Config) (validKey : String)
    (upstream : Upstream) (st : GatewayState) (req : Request) (now : Nat)
    (hkey : req.apiKey = some validKey) :
    (∀ l r w rs, rateLimiter st.rateStore req.ip now = (.allow l r w, rs) →
        (handle cfg validKey upstream st req now).1.rlHeaders = some (l, r, w)) ∧
    (∀ ra rs, rateLimiter st.rateStore req.ip now = (.deny ra, rs) →
        (handle cfg validKey upstream st req now).1 =
          ⟨429, .rateLimited ra, none, none, false⟩) := by
  constructor
  · intro l r w rs hrl
    by_cases hm : req.method = "GET"
    · cases hc : cacheLookup st.cacheStore (cacheKey "GET" req.originalUrl validKey) now with
      | some e => simp [handle, hkey, hrl, hm, hc]
      | none => simp [handle, hkey, hrl, hm, hc]
    · simp [handle, hkey, hrl, hm]
  · intro ra rs hrl
    simp [handle, hkey, hrl]

/-- C4 witness. -/
theorem ratelimit_headers_on_allowed_witness :
    (handle [("/api/users", "http://x")] "secret" (fun _ => (200, "ok"))
        ⟨[], []⟩ ⟨"GET", "/api/users/1", "/api/users/1", some "secret", "ip"⟩
        0).1.rlHeaders = some (10, 9, 60000) ∧
    (handle [("/api/users", "http://x")] "secret" (fun _ => (200, "ok"))
        ⟨[("ip", ⟨10, 0⟩)], []⟩
        ⟨"GET", "/api/users/1", "/api/users/1", some "secret", "ip"⟩ 5).1 =
      ⟨429, .rateLimited 60, none, none, false⟩ :=
  ⟨(ratelimit_headers_on_allowed [("/api/users", "http://x")] "secret"
      (fun _ => (200, "ok")) ⟨[], []⟩
      ⟨"GET", "/api/users/1", "/api/users/1", some "secret", "ip"⟩ 0 rfl).1
      10 9 60000 [("ip", ⟨1, 0⟩)] (by decide),
   (ratelimit_headers_on_allowed [("/api/users", "http://x")] "secret"
      (fun _ => (200, "ok")) ⟨[("ip", ⟨10, 0⟩)], []⟩
      ⟨"GET", "/api/users/1", "/api/users/1", some "secret", "ip"⟩ 5 rfl).2
      60 [("ip", ⟨11, 0⟩)] (by decide)⟩

/-- C8: a client issuing at most `maxRequests` requests inside one fixed
window (every later request within `windowMs` of the first) has every
request allowed, with `remaining` equal to `maxRequests - (i + 1)` on the
`i`-th request — strictly decreasing by one each time and reaching `0` on
the `maxRequests`-th request. -/
theorem under_limit_all_allowed_remaining_decreases (ip : String) (t0 : Nat)
    (ts : List Nat) (hlen : ts.length + 1 ≤ maxRequests)
    (hwin : ∀ t ∈ ts, t - t0 ≤ windowMs) :
    (runSeq [] ip (t0 :: ts)).1 =
      (List.range (ts.length + 1)).map
        (fun i => .allow maxRequests (maxRequests - (i + 1)) (t0 + windowMs)) := by
  have hfresh : rateLimiter [] ip t0 =
      (.allow maxRequests (maxRequests - 1) (t0 + windowMs), [(ip, ⟨1, t0⟩)]) := by
    have h := rateLimiter_fresh [] ip t0 (by simp [sweepStore, mapGet])
    simpa [sweepStore, mapSet] using h
  have hrest := runSeq_same_window ip t0 ts 1 (by omega) hwin
  simp only [runSeq, hfresh, hrest, List.range_succ_eq_map, List.map_cons,
    List.map_map, List.cons.injEq]
  refine ⟨by simp, ?_⟩
  apply List.map_congr_left
  intro i _
  simp only [Function.comp_apply, RateResult.allow.injEq, true_and, and_true]
  omega

/-- C8 witness. -/
theorem under_limit_all_allowed_remaining_decreases_witness :
    (runSeq [] "client" (0 :: [1, 2, 3, 4, 5, 6, 7, 8, 9])).1 =
      (List.range (([1, 2, 3, 4, 5, 6, 7, 8, 9] : List Nat).length + 1)).map
        (fun i => .allow maxRequests (maxRequests - (i + 1)) (0 + windowMs)) :=
  under_limit_all_allowed_remaining_decreases "client" 0 [1, 2, 3, 4, 5, 6, 7, 8, 9]
    (by decide) (by decide)

/-- C5: a request to any route that presents no `x-api-key` header, or one
that differs from the configured key, terminates with status 401 and the
final gateway state (rate-limit store and cache store) is exactly the
initial one: neither store is read or mutated. -/
theorem auth_failure_preserves_state (cfg : Config) (validKey : String)
    (upstream : Upstream) (st : GatewayState) (req : Request) (now : Nat) :
    (req.apiKey = none →
      handle cfg validKey upstream st req now =
        (⟨401, .errMissingKey, none, none, false⟩, st)) ∧
    (∀ k, req.apiKey = some k → k ≠ validKey →
      handle cfg validKey upstream st req now =
        (⟨401, .errInvalidKey, none, none, false⟩, st)) := by
  constructor
  · intro h
    simp [handle, h]
  · intro k h hne
    simp [handle, h, hne]

/-- C5 witness. -/
theorem auth_failure_preserves_state_witness :
    (handle [("/api/users", "http://x")] "secret" (fun _ => (200, "ok"))
        ⟨[], []⟩ ⟨"GET", "/api/users/1", "/api/users/1", none, "ip"⟩ 0 =
      (⟨401, .errMissingKey, none, none, false⟩, ⟨[], []⟩)) ∧
    (handle [("/api/users", "http://x")] "secret" (fun _ => (200, "ok"))
        ⟨[], []⟩ ⟨"GET", "/api/users/1", "/api/users/1", some "wrong", "ip"⟩ 0 =
      (⟨401, .errInvalidKey, none, none, false⟩, ⟨[], []⟩)) :=
  ⟨(auth_failure_preserves_state [("/api/users", "http://x")] "secret"
      (fun _ => (200, "ok")) ⟨[], []⟩
      ⟨"GET", "/api/users/1", "/api/users/1", none, "ip"⟩ 0).1 rfl,
   (auth_failure_preserves_state [("/api/users", "http://x")] "secret"
      (fun _ => (200, "ok")) ⟨[], []⟩
      ⟨"GET", "/api/users/1", "/api/users/1", some "wrong", "ip"⟩ 0).2 "wrong" rfl
      (by decide)⟩

/-- C2: evaluation of the pipeline at the failing input.  A `GET /health`
request presenting no `x-api-key` header is rejected with 401 by
`authenticateApiKey`, which is mounted (line 134) before the `/health`
route (line 139); the claimed unauthenticated 200 response never happens,
and no route is exempt from authentication. -/
theorem health_without_key_yields_401 :
    handle [("/api/users", "http://x")] "gateway-secret-key" (fun _ => (200, "ok"))
        ⟨[], []⟩ ⟨"GET", "/health", "/health", none, "ip"⟩ 0 =
      (⟨401, .errMissingKey, none, none, false⟩, ⟨[], []⟩) := by
  decide

/-- C6: the patched `res.json` stores a response only when the status is
200, and when the insertion pushes the cache size past the maximum (from a
full cache of 100 distinct keys), the batch of the 10 oldest entries in
insertion order is evicted at once, leaving exactly
`maxCacheSize - evictBatch + 1 = 91` entries: the result is the old store
minus its first 10 entries plus the new entry at the end. -/
theorem cache_store_only_200_and_eviction (cs : CacheStore) (key : String)
    (d : Payload) (now status : Nat) :
    (status ≠ 200 → cacheStoreStep cs key d now status = cs) ∧
    ((mapKeys cs).Nodup → containsKey cs key = false → cs.length = maxCacheSize →
      cacheStoreStep cs key d now 200 = cs.drop evictBatch ++ [(key, ⟨d, now⟩)] ∧
      (cacheStoreStep cs key d now 200).length = maxCacheSize - evictBatch + 1) := by
  constructor
  · intro h
    simp [cacheStoreStep, h]
  · intro hnd hfresh hlen
    have hset : mapSet cs key ⟨d, now⟩ = cs ++ [(key, ⟨d, now⟩)] :=
      mapSet_of_not_contains cs key _ hfresh
    have hnotmem : key ∉ mapKeys cs := not_mem_mapKeys_of_not_contains cs key hfresh
    have hnd' : (mapKeys (cs ++ [(key, ⟨d, now⟩)])).Nodup := by
      have : mapKeys (cs ++ [(key, ⟨d, now⟩)]) = mapKeys cs ++ [key] := by
        simp [mapKeys]
      rw [this]
      simp [List.nodup_append, hnd, hnotmem]
    have hgt : (cs ++ [(key, (⟨d, now⟩ : CacheEntry))]).length > maxCacheSize := by
      simp [hlen, maxCacheSize]
    have hfold := foldl_mapDelete_take (cs ++ [(key, (⟨d, now⟩ : CacheEntry))]) evictBatch hnd'
    have hdrop : (cs ++ [(key, (⟨d, now⟩ : CacheEntry))]).drop evictBatch =
        cs.drop evictBatch ++ [(key, (⟨d, now⟩ : CacheEntry))] := by
      apply List.drop_append_of_le_length
      rw [hlen]
      norm_num [maxCacheSize, evictBatch]
    have hstep : cacheStoreStep cs key d now 200 =
        cs.drop evictBatch ++ [(key, (⟨d, now⟩ : CacheEntry))] := by
      simp only [cacheStoreStep, hset]
      rw [if_pos trivial, if_pos hgt, hfold, hdrop]
    refine ⟨hstep, ?_⟩
    rw [hstep]
    simp [hlen, maxCacheSize, evictBatch]

/-- C6 witness. -/
theorem cache_store_only_200_and_eviction_witness :
    cacheStoreStep [("old", ⟨.upstream "", 0⟩)] "new" (.upstream "f") 5 404 =
      [("old", ⟨.upstream "", 0⟩)] ∧
    (cacheStoreStep
        ((List.range 100).map
          (fun i => (toString i, (⟨Payload.upstream "", 0⟩ : CacheEntry))))
        "new" (.upstream "fresh") 5 200 =
      ((List.range 100).map
          (fun i => (toString i, (⟨Payload.upstream "", 0⟩ : CacheEntry)))).drop
          evictBatch
        ++ [("new", ⟨.upstream "fresh", 5⟩)]) ∧
    (cacheStoreStep
        ((List.range 100).map
          (fun i => (toString i, (⟨Payload.upstream "", 0⟩ : CacheEntry))))
        "new" (.upstream "fresh") 5 200).length = maxCacheSize - evictBatch + 1 :=
  ⟨(cache_store_only_200_and_eviction [("old", ⟨.upstream "", 0⟩)] "new"
      (.upstream "f") 5 404).1 (by decide),
   (cache_store_only_200_and_eviction
      ((List.range 100).map
        (fun i => (toString i, (⟨Payload.upstream "", 0⟩ : CacheEntry))))
      "new" (.upstream "fresh") 5 200).2
    (by decide) (by decide) (by decide)⟩

/-- C9: for the same GET (same method and same path-with-query), two
distinct credential values always produce distinct cache keys, and a store
performed under one credential's key leaves the lookup under the other
credential's key exactly as it was — so one caller never observes the
other's cached response. -/
theorem distinct_credentials_never_share_cache (m u k1 k2 : String) (hne : k1 ≠ k2) :
    cacheKey m u k1 ≠ cacheKey m u k2 ∧
    ∀ (cs : CacheStore) (e : CacheEntry) (now : Nat),
      cacheLookup (mapSet cs (cacheKey m u k2) e) (cacheKey m u k1) now =
        cacheLookup cs (cacheKey m u k1) now := by
  have hkey : cacheKey m u k1 ≠ cacheKey m u k2 := by
    intro h
    apply hne
    have hd := congrArg String.data h
    simp only [cacheKey, String.data_append, List.append_assoc] at hd
    have h1 := List.append_cancel_left hd
    have h2 := List.append_cancel_left h1
    have h3 := List.append_cancel_left h2
    have h4 := List.append_cancel_left h3
    exact String.ext h4
  refine ⟨hkey, ?_⟩
  intro cs e now
  unfold cacheLookup
  rw [mapGet_mapSet_ne cs (cacheKey m u k2) (cacheKey m u k1) e hkey]

/-- C9 witness. -/
theorem distinct_credentials_never_share_cache_witness :
    cacheKey "GET" "/api/users/1" "alice" ≠ cacheKey "GET" "/api/users/1" "bob" ∧
    cacheLookup
        (mapSet [] (cacheKey "GET" "/api/users/1" "bob") ⟨.upstream "secret", 0⟩)
        (cacheKey "GET" "/api/users/1" "alice") 5 =
      cacheLookup [] (cacheKey "GET" "/api/users/1" "alice") 5 :=
  ⟨(distinct_credentials_never_share_cache "GET" "/api/users/1" "alice" "bob"
      (by decide)).1,
   (distinct_credentials_never_share_cache "GET" "/api/users/1" "alice" "bob"
      (by decide)).2 [] ⟨.upstream "secret", 0⟩ 5⟩

/-- C7 counterexample: for the GET `/api/users/123?a=b?c=d` under the
configuration `{"/api/users": "http://x"}` the rewritten path is
`/123?a=b`, not the prefix-stripped path with the original query string
`a=b?c=d` re-appended unchanged: `url.split('?')[1]` keeps only the part
of the query before its own first `?`. -/
theorem query_with_second_qmark_truncated :
    rewrittenPath [("/api/users", "http://x")] "/api/users/123"
        "/api/users/123?a=b?c=d" = "/123?a=b" ∧
    "/123?a=b" ≠ "/123?a=b?c=d" := by
  constructor <;> decide

/-- C7 (amended): route resolution returns the first declared prefix (in
configuration order) that the path starts with, and the rewritten path is
the path with that prefix stripped (`/` when the remainder is empty); the
re-appended query suffix is the portion of the original URL between its
first and second `?` — equal to the original query string whenever the
query itself contains no `?`, and truncated at the query's own first `?`
otherwise.  The spec's concrete examples hold. -/
theorem first_match_strip_and_query :
    (∀ (pre : Config) (rt : String × String) (post : Config) (path : String),
        (∀ r ∈ pre, jsStartsWith path r.1 = false) →
        jsStartsWith path rt.1 = true →
        routerTarget (pre ++ rt :: post) path = some rt.2) ∧
    (∀ (pre : Config) (rt : String × String) (post : Config) (rest : String),
        (∀ r ∈ pre, jsStartsWith (rt.1 ++ rest) r.1 = false) →
        Char.ofNat 63 ∉ (rt.1 ++ rest).data →
        rewrittenPath (pre ++ rt :: post) (rt.1 ++ rest) (rt.1 ++ rest) =
          (if rest = "" then "/" else rest)) ∧
    (∀ (pre : Config) (rt : String × String) (post : Config) (rest q : String),
        (∀ r ∈ pre, jsStartsWith (rt.1 ++ rest) r.1 = false) →
        Char.ofNat 63 ∉ (rt.1 ++ rest).data → Char.ofNat 63 ∉ q.data →
        rewrittenPath (pre ++ rt :: post) (rt.1 ++ rest) (rt.1 ++ rest ++ "?" ++ q) =
          (if rest = "" then "/" else rest) ++ "?" ++ q) ∧
    (∀ (path q1 q2 : String),
        Char.ofNat 63 ∉ path.data → Char.ofNat 63 ∉ q1.data →
        querySuffix (path ++ "?" ++ q1 ++ "?" ++ q2) = "?" ++ q1) ∧
    rewrittenPath [("/api/users", "http://x")] "/api/users/123" "/api/users/123" =
      "/123" ∧
    rewrittenPath [("/api/users", "http://x")] "/api/users" "/api/users" = "/" := by
  have hq : Char.ofNat 63 = '?' := by decide
  refine ⟨?_, ?_, ?_, ?_, by decide, by decide⟩
  · intro pre rt post path hpre hrt
    simp [routerTarget, find?_first _ pre rt post hpre hrt]
  · intro pre rt post rest hpre hpath
    rw [hq] at hpath
    have hfind := find?_first _ pre rt post hpre (jsStartsWith_append rt.1 rest)
    have hstrip : jsReplaceFirstEmpty (rt.1 ++ rest) rt.1 = rest := by
      simp only [jsReplaceFirstEmpty, String.data_append, removeFirstOcc_append]
    simp only [rewrittenPath, hfind, hstrip, querySuffix_of_no_qmark _ hpath,
      String.append_empty]
  · intro pre rt post rest q hpre hpath hqm
    rw [hq] at hpath hqm
    have hfind := find?_first _ pre rt post hpre (jsStartsWith_append rt.1 rest)
    have hstrip : jsReplaceFirstEmpty (rt.1 ++ rest) rt.1 = rest := by
      simp only [jsReplaceFirstEmpty, String.data_append, removeFirstOcc_append]
    simp only [rewrittenPath, hfind, hstrip,
      querySuffix_one_qmark (rt.1 ++ rest) q hpath hqm]
    simp [String.ext_iff, String.data_append, List.append_assoc]
  · intro path q1 q2 hp hq1
    rw [hq] at hp hq1
    exact querySuffix_two_qmark path q1 q2 hp hq1

/-- C7 witness. -/
theorem first_match_strip_and_query_witness :
    routerTarget [("/api", "http://first"), ("/api/users", "http://second")]
        "/api/users/7" = some "http://first" ∧
    rewrittenPath [("/api/users", "http://x")] ("/api/users" ++ "/123")
        ("/api/users" ++ "/123" ++ "?" ++ "a=b") =
      (if "/123" = "" then "/" else "/123") ++ "?" ++ "a=b" ∧
    querySuffix ("/p" ++ "?" ++ "a=b" ++ "?" ++ "c=d") = "?" ++ "a=b" :=
  ⟨first_match_strip_and_query.1 [] ("/api", "http://first")
      [("/api/users", "http://second")] "/api/users/7" (by simp) (by decide),
   (first_match_strip_and_query.2.2.1 [] ("/api/users", "http://x") [] "/123" "a=b"
      (by simp) (by decide) (by decide)),
   first_match_strip_and_query.2.2.2.1 "/p" "a=b" "c=d" (by decide) (by decide)⟩

/-- C1: a GET to a proxied route that misses the cache is forwarded and its
200 upstream response is stored; an identical GET (same method, same
path-with-query, same credential) within the 30s TTL of the store time is
answered from the cache — status 200, the stored body, `_cached: true`
with `_cachedAt` equal to the store time — without a second Forwarder
call, while an identical GET at or after TTL expiry is a miss and is
forwarded again. -/
theorem repeat_get_within_ttl_served_from_cache
    (cfg : Config) (validKey : String) (upstream : Upstream) (st : GatewayState)
    (req : Request) (t1 t2 t2' : Nat) (rt : String × String)
    (l1 r1 w1 l2 r2 w2 l3 r3 w3 : Nat) (rs1 rs2 rs3 : RateStore) (ubody : String)
    (hm : req.method = "GET") (hkey : req.apiKey = some validKey)
    (hh : req.path ≠ "/health") (hs : req.path ≠ "/gateway/stats")
    (hroute : cfg.find? (fun e => mountMatches e.1 req.path) = some rt)
    (hup : upstream req = (200, ubody))
    (hfresh : containsKey st.cacheStore (cacheKey "GET" req.originalUrl validKey) = false)
    (hsize : st.cacheStore.length < maxCacheSize)
    (hrl1 : rateLimiter st.rateStore req.ip t1 = (.allow l1 r1 w1, rs1))
    (hrl2 : rateLimiter rs1 req.ip t2 = (.allow l2 r2 w2, rs2))
    (hrl3 : rateLimiter rs1 req.ip t2' = (.allow l3 r3 w3, rs3))
    (httl : t2 - t1 < cacheTTLms) (hexp : cacheTTLms ≤ t2' - t1) :
    (handle cfg validKey upstream st req t1).1 =
      ⟨200, .upstream ubody, none, some (l1, r1, w1), true⟩ ∧
    (handle cfg validKey upstream
        (handle cfg validKey upstream st req t1).2 req t2).1 =
      ⟨200, .upstream ubody, some t1, some (l2, r2, w2), false⟩ ∧
    (handle cfg validKey upstream
        (handle cfg validKey upstream st req t1).2 req t2').1.forwarded = true := by
  have hget0 : mapGet st.cacheStore (cacheKey "GET" req.originalUrl validKey) = none :=
    mapGet_eq_none_of_not_contains _ _ hfresh
  have hlook1 : cacheLookup st.cacheStore (cacheKey "GET" req.originalUrl validKey) t1 =
      none := by
    simp [cacheLookup, hget0]
  have hdisp : ∀ (s : GatewayState) (tt : Nat),
      dispatch cfg upstream s req tt = (200, .upstream ubody, true) := by
    intro s tt
    simp [dispatch, hm, hh, hs, hroute, hup]
  have hstore : cacheStoreStep st.cacheStore (cacheKey "GET" req.originalUrl validKey)
      (.upstream ubody) t1 200 =
      mapSet st.cacheStore (cacheKey "GET" req.originalUrl validKey)
        ⟨.upstream ubody, t1⟩ := by
    have hle : (mapSet st.cacheStore (cacheKey "GET" req.originalUrl validKey)
        (⟨.upstream ubody, t1⟩ : CacheEntry)).length ≤ maxCacheSize := by
      have h1 := length_mapSet_le st.cacheStore
        (cacheKey "GET" req.originalUrl validKey) (⟨.upstream ubody, t1⟩ : CacheEntry)
      omega
    simp only [cacheStoreStep, if_pos rfl]
    rw [if_neg (Nat.not_lt.mpr hle)]
    simp
  have hres1 : handle cfg validKey upstream st req t1 =
      (⟨200, .upstream ubody, none, some (l1, r1, w1), true⟩,
       ⟨rs1, mapSet st.cacheStore (cacheKey "GET" req.originalUrl validKey)
          ⟨.upstream ubody, t1⟩⟩) := by
    simp [handle, hkey, hrl1, hm, hlook1, hdisp, hstore]
  have hget2 : mapGet (mapSet st.cacheStore
      (cacheKey "GET" req.originalUrl validKey) ⟨.upstream ubody, t1⟩)
      (cacheKey "GET" req.originalUrl validKey) =
      some ⟨.upstream ubody, t1⟩ :=
    mapGet_mapSet_self st.cacheStore (cacheKey "GET" req.originalUrl validKey)
      ⟨.upstream ubody, t1⟩
  refine ⟨by rw [hres1], ?_, ?_⟩
  · have hlook2 : cacheLookup (mapSet st.cacheStore
        (cacheKey "GET" req.originalUrl validKey) ⟨.upstream ubody, t1⟩)
        (cacheKey "GET" req.originalUrl validKey) t2 =
        some ⟨.upstream ubody, t1⟩ := by
      simp [cacheLookup, hget2, httl]
    rw [hres1]
    simp [handle, hkey, hrl2, hm, hlook2]
  · have hlook3 : cacheLookup (mapSet st.cacheStore
        (cacheKey "GET" req.originalUrl validKey) ⟨.upstream ubody, t1⟩)
        (cacheKey "GET" req.originalUrl validKey) t2' = none := by
      simp [cacheLookup, hget2, Nat.not_lt.mpr hexp]
    rw [hres1]
    simp [handle, hkey, hrl3, hm, hlook3, hdisp]

/-- C1 witness. -/
theorem repeat_get_within_ttl_served_from_cache_witness :
    (handle [("/api/users", "http://x")] "secret" (fun _ => (200, "hello")) ⟨[], []⟩
        ⟨"GET", "/api/users/123", "/api/users/123", some "secret", "1.2.3.4"⟩ 1000).1 =
      ⟨200, .upstream "hello", none, some (10, 9, 61000), true⟩ ∧
    (handle [("/api/users", "http://x")] "secret" (fun _ => (200, "hello"))
        (handle [("/api/users", "http://x")] "secret" (fun _ => (200, "hello")) ⟨[], []⟩
          ⟨"GET", "/api/users/123", "/api/users/123", some "secret", "1.2.3.4"⟩ 1000).2
        ⟨"GET", "/api/users/123", "/api/users/123", some "secret", "1.2.3.4"⟩ 20000).1 =
      ⟨200, .upstream "hello", some 1000, some (10, 8, 61000), false⟩ ∧
    (handle [("/api/users", "http://x")] "secret" (fun _ => (200, "hello"))
        (handle [("/api/users", "http://x")] "secret" (fun _ => (200, "hello")) ⟨[], []⟩
          ⟨"GET", "/api/users/123", "/api/users/123", some "secret", "1.2.3.4"⟩ 1000).2
        ⟨"GET", "/api/users/123", "/api/users/123", some "secret", "1.2.3.4"⟩
        40000).1.forwarded = true :=
  repeat_get_within_ttl_served_from_cache
    [("/api/users", "http://x")] "secret" (fun _ => (200, "hello")) ⟨[], []⟩
    ⟨"GET", "/api/users/123", "/api/users/123", some "secret", "1.2.3.4"⟩
    1000 20000 40000 ("/api/users", "http://x")
    10 9 61000 10 8 61000 10 8 61000
    [("1.2.3.4", ⟨1, 1000⟩)] [("1.2.3.4", ⟨2, 1000⟩)] [("1.2.3.4", ⟨2, 1000⟩)]
    "hello"
    rfl rfl (by decide) (by decide) (by decide) rfl (by decide) (by decide)
    (by decide) (by decide) (by decide) (by decide) (by decide)

/-- C10: the gateway's own management endpoints are subject to the response
cache.  A 200 response to `GET /gateway/stats` is stored, and an identical
GET with the same credential within the TTL is served the stored body
annotated with `_cached: true` — the stored statistics, whose `cacheSize`
field is the cache size at store time, while the actual cache has since
grown by the stored entry itself; likewise a repeated `GET /health` within
the TTL is served the stored body with the store-time timestamp. -/
theorem management_endpoints_are_cached :
    (∀ (cfg : Config) (validKey : String) (upstream : Upstream) (st : GatewayState)
        (ip : String) (t1 t2 l1 r1 w1 l2 r2 w2 : Nat) (rs1 rs2 : RateStore),
      containsKey st.cacheStore (cacheKey "GET" "/gateway/stats" validKey) = false →
      st.cacheStore.length < maxCacheSize →
      rateLimiter st.rateStore ip t1 = (.allow l1 r1 w1, rs1) →
      rateLimiter rs1 ip t2 = (.allow l2 r2 w2, rs2) →
      t2 - t1 < cacheTTLms →
      (handle cfg validKey upstream st
          ⟨"GET", "/gateway/stats", "/gateway/stats", some validKey, ip⟩ t1).1 =
        ⟨200, .stats rs1.length st.cacheStore.length, none, some (l1, r1, w1), false⟩ ∧
      containsKey (handle cfg validKey upstream st
          ⟨"GET", "/gateway/stats", "/gateway/stats", some validKey, ip⟩ t1).2.cacheStore
          (cacheKey "GET" "/gateway/stats" validKey) = true ∧
      (handle cfg validKey upstream
          (handle cfg validKey upstream st
            ⟨"GET", "/gateway/stats", "/gateway/stats", some validKey, ip⟩ t1).2
          ⟨"GET", "/gateway/stats", "/gateway/stats", some validKey, ip⟩ t2).1 =
        ⟨200, .stats rs1.length st.cacheStore.length, some t1, some (l2, r2, w2),
          false⟩ ∧
      (handle cfg validKey upstream st
          ⟨"GET", "/gateway/stats", "/gateway/stats", some validKey, ip⟩
          t1).2.cacheStore.length = st.cacheStore.length + 1) ∧
    (∀ (cfg : Config) (validKey : String) (upstream : Upstream) (st : GatewayState)
        (ip : String) (t1 t2 l1 r1 w1 l2 r2 w2 : Nat) (rs1 rs2 : RateStore),
      containsKey st.cacheStore (cacheKey "GET" "/health" validKey) = false →
      st.cacheStore.length < maxCacheSize →
      rateLimiter st.rateStore ip t1 = (.allow l1 r1 w1, rs1) →
      rateLimiter rs1 ip t2 = (.allow l2 r2 w2, rs2) →
      t2 - t1 < cacheTTLms →
      (handle cfg validKey upstream
          (handle cfg validKey upstream st
            ⟨"GET", "/health", "/health", some validKey, ip⟩ t1).2
          ⟨"GET", "/health", "/health", some validKey, ip⟩ t2).1 =
        ⟨200, .health t1 (cfg.map (·.1)), some t1, some (l2, r2, w2), false⟩) := by
  constructor
  · intro cfg validKey upstream st ip t1 t2 l1 r1 w1 l2 r2 w2 rs1 rs2
      hfresh hsize hrl1 hrl2 httl
    have hget0 : mapGet st.cacheStore (cacheKey "GET" "/gateway/stats" validKey) =
        none := mapGet_eq_none_of_not_contains _ _ hfresh
    have hlook1 : cacheLookup st.cacheStore
        (cacheKey "GET" "/gateway/stats" validKey) t1 = none := by
      simp [cacheLookup, hget0]
    have hdisp : ∀ tt, dispatch cfg upstream ⟨rs1, st.cacheStore⟩
        ⟨"GET", "/gateway/stats", "/gateway/stats", some validKey, ip⟩ tt =
        (200, .stats rs1.length st.cacheStore.length, false) := by
      intro tt
      simp [dispatch]
    have hle : (mapSet st.cacheStore (cacheKey "GET" "/gateway/stats" validKey)
        (⟨.stats rs1.length st.cacheStore.length, t1⟩ : CacheEntry)).length ≤
        maxCacheSize := by
      have h1 := length_mapSet_le st.cacheStore
        (cacheKey "GET" "/gateway/stats" validKey)
        (⟨.stats rs1.length st.cacheStore.length, t1⟩ : CacheEntry)
      omega
    have hstore : cacheStoreStep st.cacheStore
        (cacheKey "GET" "/gateway/stats" validKey)
        (.stats rs1.length st.cacheStore.length) t1 200 =
        mapSet st.cacheStore (cacheKey "GET" "/gateway/stats" validKey)
          ⟨.stats rs1.length st.cacheStore.length, t1⟩ := by
      simp only [cacheStoreStep, if_pos rfl]
      rw [if_neg (Nat.not_lt.mpr hle)]
      simp
    have hres1 : handle cfg validKey upstream st
        ⟨"GET", "/gateway/stats", "/gateway/stats", some validKey, ip⟩ t1 =
        (⟨200, .stats rs1.length st.cacheStore.length, none, some (l1, r1, w1),
           false⟩,
         ⟨rs1, mapSet st.cacheStore (cacheKey "GET" "/gateway/stats" validKey)
            ⟨.stats rs1.length st.cacheStore.length, t1⟩⟩) := by
      simp [handle, hrl1, hlook1, hdisp, hstore]
    have hget2 : mapGet (mapSet st.cacheStore
        (cacheKey "GET" "/gateway/stats" validKey)
        ⟨.stats rs1.length st.cacheStore.length, t1⟩)
        (cacheKey "GET" "/gateway/stats" validKey) =
        some ⟨.stats rs1.length st.cacheStore.length, t1⟩ :=
      mapGet_mapSet_self st.cacheStore (cacheKey "GET" "/gateway/stats" validKey) _
    have hlook2 : cacheLookup (mapSet st.cacheStore
        (cacheKey "GET" "/gateway/stats" validKey)
        ⟨.stats rs1.length st.cacheStore.length, t1⟩)
        (cacheKey "GET" "/gateway/stats" validKey) t2 =
        some ⟨.stats rs1.length st.cacheStore.length, t1⟩ := by
      simp [cacheLookup, hget2, httl]
    refine ⟨by rw [hres1], ?_, ?_, ?_⟩
    · rw [hres1]
      exact containsKey_mapSet_self _ _ _
    · rw [hres1]
      simp [handle, hrl2, hlook2]
    · rw [hres1]
      rw [mapSet_of_not_contains _ _ _ hfresh]
      simp
  · intro cfg validKey upstream st ip t1 t2 l1 r1 w1 l2 r2 w2 rs1 rs2
      hfresh hsize hrl1 hrl2 httl
    have hget0 : mapGet st.cacheStore (cacheKey "GET" "/health" validKey) = none :=
      mapGet_eq_none_of_not_contains _ _ hfresh
    have hlook1 : cacheLookup st.cacheStore (cacheKey "GET" "/health" validKey) t1 =
        none := by
      simp [cacheLookup, hget0]
    have hdisp : ∀ tt, dispatch cfg upstream ⟨rs1, st.cacheStore⟩
        ⟨"GET", "/health", "/health", some validKey, ip⟩ tt =
        (200, .health tt (cfg.map (·.1)), false) := by
      intro tt
      simp [dispatch]
    have hle : (mapSet st.cacheStore (cacheKey "GET" "/health" validKey)
        (⟨.health t1 (cfg.map (·.1)), t1⟩ : CacheEntry)).length ≤ maxCacheSize := by
      have h1 := length_mapSet_le st.cacheStore (cacheKey "GET" "/health" validKey)
        (⟨.health t1 (cfg.map (·.1)), t1⟩ : CacheEntry)
      omega
    have hstore : cacheStoreStep st.cacheStore (cacheKey "GET" "/health" validKey)
        (.health t1 (cfg.map (·.1))) t1 200 =
        mapSet st.cacheStore (cacheKey "GET" "/health" validKey)
          ⟨.health t1 (cfg.map (·.1)), t1⟩ := by
      simp only [cacheStoreStep, if_pos rfl]
      rw [if_neg (Nat.not_lt.mpr hle)]
      simp
    have hres1 : handle cfg validKey upstream st
        ⟨"GET", "/health", "/health", some validKey, ip⟩ t1 =
        (⟨200, .health t1 (cfg.map (·.1)), none, some (l1, r1, w1), false⟩,
         ⟨rs1, mapSet st.cacheStore (cacheKey "GET" "/health" validKey)
            ⟨.health t1 (cfg.map (·.1)), t1⟩⟩) := by
      simp [handle, hrl1, hlook1, hdisp, hstore]
    have hget2 : mapGet (mapSet st.cacheStore (cacheKey "GET" "/health" validKey)
        ⟨.health t1 (cfg.map (·.1)), t1⟩) (cacheKey "GET" "/health" validKey) =
        some ⟨.health t1 (cfg.map (·.1)), t1⟩ :=
      mapGet_mapSet_self st.cacheStore (cacheKey "GET" "/health" validKey) _
    have hlook2 : cacheLookup (mapSet st.cacheStore
        (cacheKey "GET" "/health" validKey) ⟨.health t1 (cfg.map (·.1)), t1⟩)
        (cacheKey "GET" "/health" validKey) t2 =
        some ⟨.health t1 (cfg.map (·.1)), t1⟩ := by
      simp [cacheLookup, hget2, httl]
    rw [hres1]
    simp [handle, hrl2, hlook2]

/-- C10 witness. -/
theorem management_endpoints_are_cached_witness :
    (handle [("/api/users", "http://x")] "secret" (fun _ => (200, "ok")) ⟨[], []⟩
        ⟨"GET", "/gateway/stats", "/gateway/stats", some "secret", "ip"⟩ 0).1 =
      ⟨200, .stats (([("ip", ⟨1, 0⟩)] : RateStore)).length (([] : CacheStore)).length,
        none, some (10, 9, 60000), false⟩ ∧
    containsKey (handle [("/api/users", "http://x")] "secret" (fun _ => (200, "ok"))
        ⟨[], []⟩ ⟨"GET", "/gateway/stats", "/gateway/stats", some "secret", "ip"⟩
        0).2.cacheStore (cacheKey "GET" "/gateway/stats" "secret") = true ∧
    (handle [("/api/users", "http://x")] "secret" (fun _ => (200, "ok"))
        (handle [("/api/users", "http://x")] "secret" (fun _ => (200, "ok")) ⟨[], []⟩
          ⟨"GET", "/gateway/stats", "/gateway/stats", some "secret", "ip"⟩ 0).2
        ⟨"GET", "/gateway/stats", "/gateway/stats", some "secret", "ip"⟩ 100).1 =
      ⟨200, .stats (([("ip", ⟨1, 0⟩)] : RateStore)).length (([] : CacheStore)).length,
        some 0, some (10, 8, 60000), false⟩ ∧
    (handle [("/api/users", "http://x")] "secret" (fun _ => (200, "ok")) ⟨[], []⟩
        ⟨"GET", "/gateway/stats", "/gateway/stats", some "secret", "ip"⟩
        0).2.cacheStore.length = (([] : CacheStore)).length + 1 :=
  management_endpoints_are_cached.1 [("/api/users", "http://x")] "secret"
    (fun _ => (200, "ok")) ⟨[], []⟩ "ip" 0 100 10 9 60000 10 8 60000
    [("ip", ⟨1, 0⟩)] [("ip", ⟨2, 0⟩)]
    (by decide) (by decide) (by decide) (by decide) (by decide)

end MiniGateway
